import Mathlib

/-
  Verification of the n8n LangWatch trace-assembly core.

  The JavaScript sources are shallowly embedded: JavaScript values are the
  inductive type Json (with an explicit undefined constructor, since the code
  distinguishes absent properties from null), property access that can throw
  a TypeError is modelled in the Except monad, and the stateful TraceManager
  is modelled by explicit state passing over association lists.
-/

/-- Model of a JavaScript value. `undefined` is the JavaScript undefined value;
    objects are association lists of string keys. Object identity is not
    modelled: structural equality stands in for it, which is exact for the
    primitive values the code stores and compares. -/
inductive Json where
  | undefined : Json
  | null : Json
  | bool : Bool → Json
  | num : Int → Json
  | str : String → Json
  | arr : List Json → Json
  | obj : List (String × Json) → Json

/-- Lookup of a key in an object field list (first match wins). -/
def lookupField : List (String × Json) → String → Option Json
  | [], _ => none
  | (k, v) :: rest, key => if k = key then some v else lookupField rest key

/-- JavaScript truthiness. NaN is not modelled (the Int model has no NaN). -/
def Json.truthy : Json → Bool
  | .undefined => false
  | .null => false
  | .bool b => b
  | .num n => n != 0
  | .str s => !s.data.isEmpty
  | .arr _ => true
  | .obj _ => true

def Json.isUndefined : Json → Bool
  | .undefined => true
  | _ => false

/-- The JavaScript nullish test (null or undefined). -/
def Json.isNullish : Json → Bool
  | .undefined => true
  | .null => true
  | _ => false

def Json.isArr : Json → Bool
  | .arr _ => true
  | _ => false

def Json.isStr : Json → Bool
  | .str _ => true
  | _ => false

/-- The JavaScript `typeof v === "object"` test: true for null, arrays and
    plain objects, false for primitives and undefined. -/
def isObjectType : Json → Bool
  | .null => true
  | .arr _ => true
  | .obj _ => true
  | _ => false

/-- Guarded property access, used where the source has already established
    that the receiver is not nullish: objects look the key up, any other
    non-nullish value yields undefined (as in JavaScript for the keys the
    code uses). On nullish receivers it returns undefined; every call site
    below sits behind the same truthiness guard as the source. -/
def Json.getD : Json → String → Json
  | .obj fs, key => match lookupField fs key with
    | some v => v
    | none => .undefined
  | _, _ => .undefined

/-- Property access as JavaScript evaluates it: accessing a property of
    null or undefined throws a TypeError, modelled as `Except.error ()`. -/
def Json.getF : Json → String → Except Unit Json
  | .undefined, _ => .error ()
  | .null, _ => .error ()
  | v, key => .ok (v.getD key)

/-- The JavaScript `a || b` operator. -/
def jsOr (a b : Json) : Json :=
  if a.truthy then a else b

/-- The JavaScript optional-chaining access `v?.k`. -/
def jsOptChainField (v : Json) (key : String) : Json :=
  if v.isNullish then .undefined else v.getD key

/-- JavaScript String() conversion. Array join and object stringification
    are approximated by fixed strings; no claim below exercises them, the
    values the code stringifies are primitives. -/
def jsToString : Json → String
  | .undefined => "undefined"
  | .null => "null"
  | .bool b => if b then "true" else "false"
  | .num n => toString n
  | .str s => s
  | .arr _ => ""
  | .obj _ => "[object Object]"

/-- JavaScript ToPropertyKey for the values the code uses as keys
    (primitives); arrays and objects are approximated. -/
def jsToKey (v : Json) : String := jsToString v

/-- The JavaScript `.length` property: arrays and strings have a numeric
    length, objects may carry an explicit length field, everything else
    yields undefined. -/
def jsLength : Json → Json
  | .arr l => .num (Int.ofNat l.length)
  | .str s => .num (Int.ofNat s.length)
  | .obj fs => match lookupField fs "length" with
    | some v => v
    | none => .undefined
  | _ => .undefined

/-- The JavaScript comparison `v > 0` as the code uses it on length values:
    numbers compare numerically, undefined (and the other shapes, which
    coerce to NaN for the values arising here) compare false. -/
def jsGtZero : Json → Bool
  | .num n => decide (0 < n)
  | _ => false

/-- Index access `v[i]` for a natural index. Out-of-range array access and
    access on primitives give undefined; object index access looks up the
    decimal string key. Never called on nullish receivers (all call sites
    are truthiness-guarded in the source). -/
def jsIndexNat (v : Json) (i : Nat) : Json :=
  match v with
  | .arr l => l.getD i Json.undefined
  | .obj fs => match lookupField fs (toString i) with
    | some w => w
    | none => .undefined
  | .str s => match s.data.get? i with
    | some c => .str (String.mk [c])
    | none => .undefined
  | _ => .undefined

/-- Index access `v[i]` for a possibly negative integer index. -/
def jsIndexAt (v : Json) (i : Int) : Json :=
  if 0 ≤ i then jsIndexNat v i.toNat else .undefined

/-- Whether `p` is a prefix of `l`. -/
def listIsPrefix (p l : List Char) : Bool :=
  match p, l with
  | [], _ => true
  | _ :: _, [] => false
  | a :: ps, b :: cs => a == b && listIsPrefix ps cs

/-- Whether `p` occurs as a contiguous sublist of `l`. -/
def listIsInfix (p l : List Char) : Bool :=
  match l with
  | [] => listIsPrefix p []
  | _ :: rest => listIsPrefix p l || listIsInfix p rest

/-- Substring containment, the JavaScript `s.includes(t)`. -/
def strIncludes (s t : String) : Bool :=
  listIsInfix t.data s.data

mutual

/-- Structural equality of Json values, standing in for the SameValueZero
    comparison JavaScript Maps use on the (primitive) keys the code stores. -/
def Json.beq : Json → Json → Bool
  | .undefined, .undefined => true
  | .null, .null => true
  | .bool a, .bool b => a == b
  | .num a, .num b => a == b
  | .str a, .str b => a == b
  | .arr a, .arr b => beqList a b
  | .obj a, .obj b => beqFields a b
  | _, _ => false

def beqList : List Json → List Json → Bool
  | [], [] => true
  | a :: as, b :: bs => Json.beq a b && beqList as bs
  | _, _ => false

def beqFields : List (String × Json) → List (String × Json) → Bool
  | [], [] => true
  | (ka, va) :: as, (kb, vb) :: bs => ka == kb && Json.beq va vb && beqFields as bs
  | _, _ => false

end

mutual

theorem Json.beq_refl : (v : Json) → Json.beq v v = true
  | .undefined => rfl
  | .null => rfl
  | .bool b => by simp [Json.beq]
  | .num n => by simp [Json.beq]
  | .str s => by simp [Json.beq]
  | .arr l => by simp [Json.beq, beqList_refl l]
  | .obj fs => by simp [Json.beq, beqFields_refl fs]

theorem beqList_refl : (l : List Json) → beqList l l = true
  | [] => rfl
  | a :: as => by simp [beqList, Json.beq_refl a, beqList_refl as]

theorem beqFields_refl : (l : List (String × Json)) → beqFields l l = true
  | [] => rfl
  | (k, v) :: rest => by simp [beqFields, Json.beq_refl v, beqFields_refl rest]

end

/-
  utils/helpers.js — resolveExpression and its template machinery.

  The function reads the current date for the two supported now-format
  substitutions; the model takes the two formatted date strings (full
  weekday name, and the yyyy-MM-dd HH:mm timestamp) as explicit parameters.
-/

/-- A word character, the regex class backslash-w: ASCII letters, digits
    and underscore. -/
def wordChar (c : Char) : Bool :=
  c.isAlpha || c.isDigit || c == '_'

/-- The dollar-json-dot marker that the field regex looks for. -/
def jsonDotMarker : List Char := "$json.".data

/-- First match of the regex dollar-json-dot followed by one or more word
    characters: the regex engine tries each start position left to right
    and, where the marker is followed by a word character, captures the
    maximal word-character run. -/
def findJsonField : List Char → Option String
  | [] => none
  | c :: rest =>
    let l := c :: rest
    if listIsPrefix jsonDotMarker l then
      let after := l.drop jsonDotMarker.length
      match after.head? with
      | some c2 =>
        if wordChar c2 then some (String.mk (after.takeWhile wordChar))
        else findJsonField rest
      | none => findJsonField rest
    else findJsonField rest

/-- Single-quote character, written by code point to keep string literals
    plain. -/
def squote : Char := Char.ofNat 39

/-- Opening and closing brace characters, written by code point. -/
def lbrace : Char := Char.ofNat 123

def rbrace : Char := Char.ofNat 125

/-- The literal now-format call with the cccc (weekday) format. -/
def nowFmtWeekday : List Char :=
  "$now.format(".data ++ [squote] ++ "cccc".data ++ [squote, ')']

/-- The literal now-format call with the yyyy-MM-dd HH:mm format. -/
def nowFmtDateTime : List Char :=
  "$now.format(".data ++ [squote] ++ "yyyy-MM-dd HH:mm".data ++ [squote, ')']

/-- Consume an exact literal prefix, returning the rest. -/
def matchLit : List Char → List Char → Option (List Char)
  | [], l => some l
  | _ :: _, [] => none
  | p :: ps, c :: cs => if c == p then matchLit ps cs else none

/-- Try to match, at the head of `l`, the template pattern: two opening
    braces, optional whitespace, the given literal, optional whitespace,
    two closing braces. Returns the rest of the input after the match. -/
def matchNowPat (fmtLit : List Char) (l : List Char) : Option (List Char) :=
  match matchLit [lbrace, lbrace] l with
  | none => none
  | some l1 =>
    match matchLit fmtLit (l1.dropWhile Char.isWhitespace) with
    | none => none
    | some l3 =>
      matchLit [rbrace, rbrace] (l3.dropWhile Char.isWhitespace)

/-- Global regex replace of the template pattern by `repl`, scanning left
    to right. Fuel-structured for computability; a match always consumes at
    least four characters and a non-match consumes one, so fuel equal to
    the input length never runs out. -/
def replaceAllPatFuel (fmtLit repl : List Char) : Nat → List Char → List Char
  | 0, l => l
  | _ + 1, [] => []
  | n + 1, c :: cs =>
    match matchNowPat fmtLit (c :: cs) with
    | some rest => repl ++ replaceAllPatFuel fmtLit repl n rest
    | none => c :: replaceAllPatFuel fmtLit repl n cs

def replaceAllPat (fmtLit repl : List Char) (l : List Char) : List Char :=
  replaceAllPatFuel fmtLit repl l.length l

/-- The date-template branch: the two chained global replaces, weekday
    pattern first, then the timestamp pattern. -/
def replaceNowTemplates (content : String) (weekday datetime : String) : String :=
  String.mk (replaceAllPat nowFmtDateTime datetime.data
    (replaceAllPat nowFmtWeekday weekday.data content.data))

/-- The json-template step of resolveExpression: if the content mentions
    the json marker, the first regex field capture is looked up in the data
    context; a defined value short-circuits the rest of the function. -/
def jsonStep (content : String) (data : Json) : Option Json :=
  if strIncludes content "$json." then
    match findJsonField content.data with
    | some fieldName =>
      if data.truthy && !(data.getD fieldName).isUndefined then some (data.getD fieldName)
      else none
    | none => none
  else none

/-- The test `s.startsWith` an equals sign, on the character list. -/
def startsWithEq (s : String) : Bool :=
  listIsPrefix "=".data s.data

/-- The call `s.substring(1)`, on the character list. -/
def strTail (s : String) : String :=
  String.mk (s.data.drop 1)

/-- utils/helpers.js resolveExpression (also duplicated verbatim in
    n8n-langwatch-direct.js): non-strings pass through, strings without a
    leading equals sign pass through, otherwise the content after the
    equals sign goes through the json lookup, then the date templates,
    and is finally returned verbatim. -/
def resolveExpression (expr data : Json) (weekday datetime : String) : Json :=
  match expr with
  | .str s =>
    if startsWithEq s then
      let content := strTail s
      match jsonStep content data with
      | some v => v
      | none =>
        if strIncludes content "$now.format" then
          .str (replaceNowTemplates content weekday datetime)
        else .str content
    else .str s
  | v => v

/-
  langwatch-client.js — LangWatchClient sendRequest retry loop.

  Each attempt of the underlying HTTP request observes one of three events:
  a response with a status code and body, a connection error, or a timeout.
  The model abstracts the network as a function from the attempt number
  (starting at 1, as in the source) to the event that attempt observes.
  Backoff delays are recorded in seconds (the source multiplies by 1000 to
  get milliseconds); a successful 2xx response resolves with the raw body
  (the source additionally runs JSON.parse on it, falling back to the raw
  string, which only reshapes the resolved value).
-/

inductive HttpEvent where
  | response : Nat → String → HttpEvent
  | connError : String → HttpEvent
  | timedOut : HttpEvent
deriving DecidableEq

inductive ReqOutcome where
  | resolved : String → ReqOutcome
  | rejected : String → ReqOutcome
deriving DecidableEq

def httpErrMsg (status : Nat) (body : String) : String :=
  "HTTP Error: " ++ toString status ++ " " ++ body

/-- Whether an event is one the retry policy retries on: an HTTP 5xx
    response, a connection error, or a timeout. -/
def retryable : HttpEvent → Bool
  | .response status _ => decide (500 ≤ status)
  | .connError _ => true
  | .timedOut => true

/-- The expected backoff delays: two to the power of each attempt number
    from `start`, for `len` retries. -/
def backoffList (start len : Nat) : List Nat :=
  match len with
  | 0 => []
  | n + 1 => 2 ^ start :: backoffList (start + 1) n

/-- The last attempt, once the retry guard `attempt < maxRetries` no
    longer holds: a 2xx response still resolves, every other event
    rejects with its message. -/
def finalAttempt (ev : HttpEvent) (attempt : Nat) : Nat × List Nat × ReqOutcome :=
  match ev with
  | .response status body =>
    if 200 ≤ status ∧ status < 300 then (attempt, [], .resolved body)
    else (attempt, [], .rejected (httpErrMsg status body))
  | .connError msg => (attempt, [], .rejected msg)
  | .timedOut => (attempt, [], .rejected "Request timed out")

/-- One sendRequest invocation chain, structurally recursive on
    `remaining = maxRetries - attempt` (the guard `attempt < maxRetries`
    of the source is exactly `remaining > 0` under that invariant, which
    `sendRequest` establishes and every recursive call preserves).
    Returns the number of the last attempt made, the list of backoff
    delays slept between attempts, and the final outcome. -/
def sendRequestAux (events : Nat → HttpEvent) : Nat → Nat → Nat × List Nat × ReqOutcome
  | 0, attempt => finalAttempt (events attempt) attempt
  | r + 1, attempt =>
    match events attempt with
    | .response status body =>
      if 200 ≤ status ∧ status < 300 then (attempt, [], .resolved body)
      else if 500 ≤ status then
        let (a, ds, o) := sendRequestAux events r (attempt + 1)
        (a, 2 ^ attempt :: ds, o)
      else (attempt, [], .rejected (httpErrMsg status body))
    | .connError _ =>
      let (a, ds, o) := sendRequestAux events r (attempt + 1)
      (a, 2 ^ attempt :: ds, o)
    | .timedOut =>
      let (a, ds, o) := sendRequestAux events r (attempt + 1)
      (a, 2 ^ attempt :: ds, o)

/-- LangWatchClient sendRequest: attempts start at 1, and the retry guard
    compares the attempt counter against the configured maximum. -/
def sendRequest (maxRetries : Nat) (events : Nat → HttpEvent) : Nat × List Nat × ReqOutcome :=
  sendRequestAux events (maxRetries - 1) 1

/-
  trace-manager.js — TraceManager state and operations.

  The two Maps (workflowExecutions and pendingNodeExecutions) are modelled
  as association lists with Json keys compared by Json.beq, matching the
  SameValueZero key comparison of a JavaScript Map on the primitive keys
  the code stores. Spans are Json objects. Timestamps come in as explicit
  parameters (the source reads Date.now()).
-/

/-- The execution record created per workflow run. The nodes Map of the
    source is omitted: no code path ever reads or writes it. -/
structure RunData where
  workflow : Json
  traceId : String
  startedAt : Int
  spans : List Json
  isComplete : Bool

structure TMState where
  workflowExecutions : List (Json × RunData)
  pendingNodeExecutions : List (Json × List Json)

/-- Map lookup by SameValueZero key comparison. -/
def lookupJ (l : List (Json × α)) (k : Json) : Option α :=
  match l with
  | [] => none
  | (k2, v) :: rest => if Json.beq k2 k then some v else lookupJ rest k

/-- Map set: replace the value at an existing key slot (keeping the stored
    key, as a JavaScript Map does) or append a new entry. -/
def setKeyJ (k : Json) (v : α) : List (Json × α) → List (Json × α)
  | [] => [(k, v)]
  | (k2, v2) :: rest =>
    if Json.beq k2 k then (k2, v) :: rest else (k2, v2) :: setKeyJ k v rest

/-- Map delete. A Map holds at most one entry per key; filtering all
    matching entries is the same operation here. -/
def eraseKeyJ (k : Json) (l : List (Json × α)) : List (Json × α) :=
  l.filter (fun p => !(Json.beq p.1 k))

theorem lookupJ_setKeyJ_self (k : Json) (v : α) (l : List (Json × α)) :
    lookupJ (setKeyJ k v l) k = some v := by
  induction l with
  | nil => simp [setKeyJ, lookupJ, Json.beq_refl]
  | cons p rest ih =>
    obtain ⟨k2, v2⟩ := p
    by_cases h : Json.beq k2 k = true
    · simp [setKeyJ, h, lookupJ]
    · simp [setKeyJ, h, lookupJ, ih]

theorem lookupJ_eraseKeyJ_self (k : Json) (l : List (Json × α)) :
    lookupJ (eraseKeyJ k l) k = none := by
  induction l with
  | nil => simp [eraseKeyJ, lookupJ]
  | cons p rest ih =>
    obtain ⟨k2, v2⟩ := p
    by_cases h : Json.beq k2 k = true
    · simpa [eraseKeyJ, h] using ih
    · simpa [eraseKeyJ, h, lookupJ] using ih

/-- The run key the instrumentation computes: `workflow?.id ?? "unknown"`. -/
def wfKey (workflow : Json) : Json :=
  let idv := jsOptChainField workflow "id"
  if idv.isNullish then .str "unknown" else idv

/-- TraceManager.addSpan: append to the live execution if one exists,
    otherwise queue the span under the run key in the pending (orphan)
    map, creating the queue on first use. -/
def addSpan (workflowId : Json) (span : Json) (st : TMState) : TMState :=
  match lookupJ st.workflowExecutions workflowId with
  | some execution =>
    let execution2 := { execution with spans := execution.spans ++ [span] }
    { st with workflowExecutions := setKeyJ workflowId execution2 st.workflowExecutions }
  | none =>
    match lookupJ st.pendingNodeExecutions workflowId with
    | some pending =>
      { st with pendingNodeExecutions := setKeyJ workflowId (pending ++ [span]) st.pendingNodeExecutions }
    | none =>
      { st with pendingNodeExecutions := setKeyJ workflowId [span] st.pendingNodeExecutions }

/-- TraceManager.createWorkflowExecution: build a fresh execution record,
    store it under the run key, then drain any pending orphan spans for
    that key into the record (appended after its — empty — span list, in
    queue order) and clear the orphan queue. The source stores the record
    before draining and then mutates it in place; storing the drained
    record once is the same final state. Returns the state and the record. -/
def createWorkflowExecution (workflow : Json) (now : Int) (st : TMState) :
    TMState × RunData :=
  let workflowId := wfKey workflow
  let traceId := "wf-" ++ jsToString workflowId ++ "-" ++ toString now
  let ed0 : RunData :=
    { workflow := workflow, traceId := traceId, startedAt := now,
      spans := [], isComplete := false }
  match lookupJ st.pendingNodeExecutions workflowId with
  | some pendingNodes =>
    let ed := { ed0 with spans := ed0.spans ++ pendingNodes }
    (⟨setKeyJ workflowId ed st.workflowExecutions,
      eraseKeyJ workflowId st.pendingNodeExecutions⟩, ed)
  | none =>
    (⟨setKeyJ workflowId ed0 st.workflowExecutions,
      st.pendingNodeExecutions⟩, ed0)

/-- The summary span completeWorkflowExecution builds (span type is the
    literal "workflow"; the spec calls this record kind workflow-summary). -/
def mkWorkflowSpan (ed : RunData) (result : Json) (finishedAt : Int) : Json :=
  let workflowName := jsOr (jsOptChainField ed.workflow "name") (.str "unknown")
  .obj [("type", .str "workflow"),
        ("span_id", .str (ed.traceId ++ "-workflow")),
        ("input", .obj [("type", .str "text"),
                        ("value", .str ("Workflow: " ++ jsToString workflowName))]),
        ("output", .obj [("type", .str "json"),
                         ("value",
                          if result.truthy then
                            if (result.getD "error").truthy then
                              .obj [("error", result.getD "error")]
                            else .obj [("success", .bool true)]
                          else .obj [("success", .bool true)])]),
        ("timestamps", .obj [("started_at", .num ed.startedAt),
                             ("finished_at", .num finishedAt)])]

/-- TraceManager.completeWorkflowExecution: if the run exists, append the
    summary span, mark it complete, and hand the run to the exporter
    (returned as `some run`; the export itself and its cleanup are
    asynchronous and modelled separately by sendWorkflowToLangWatchTM).
    If the run does not exist, nothing at all happens. -/
def completeWorkflowExecution (workflowId : Json) (result : Json) (now : Int)
    (st : TMState) : TMState × Option RunData :=
  match lookupJ st.workflowExecutions workflowId with
  | some executionData =>
    let workflowSpan := mkWorkflowSpan executionData result now
    let ed2 := { executionData with
                 spans := executionData.spans ++ [workflowSpan],
                 isComplete := true }
    (⟨setKeyJ workflowId ed2 st.workflowExecutions,
      st.pendingNodeExecutions⟩, some ed2)
  | none => (st, none)

/-- TraceManager.sendWorkflowToLangWatch, given the export outcome: the
    trace payload is built from `workflow.id` (which throws — caught by
    the surrounding try, leaving the state untouched — when the stored
    workflow is nullish), the send is awaited, and only after a successful
    send is the run entry deleted (an export failure jumps to the catch
    block, which merely logs, skipping the delete). -/
def sendWorkflowToLangWatchTM (exportOk : Bool) (ed : RunData) (st : TMState) :
    TMState :=
  match ed.workflow.getF "id" with
  | .error _ => st
  | .ok idv =>
    if exportOk then
      { st with workflowExecutions := eraseKeyJ idv st.workflowExecutions }
    else st

/-- The sendWorkflowToLangWatch variant of n8n-langwatch-direct.js: here
    the delete sits in a .finally continuation, so once the payload is
    built the run entry is removed whatever the export outcome. -/
def sendWorkflowToLangWatchDirect (_exportOk : Bool) (ed : RunData) (st : TMState) :
    TMState :=
  match ed.workflow.getF "id" with
  | .error _ => st
  | .ok idv =>
    { st with workflowExecutions := eraseKeyJ idv st.workflowExecutions }

/-
  utils/model-detection.js — isAINode, the step classifier.

  The only operation in its body that can throw is calling toLowerCase on
  a type or name value that is neither nullish (the optional chain catches
  those) nor a string; that is modelled explicitly in Except.
-/

/-- Calling toLowerCase on a value: strings lower-case, any other receiver
    has no such method and the call throws a TypeError. -/
def jsToLowerCase : Json → Except Unit Json
  | .str s => .ok (.str (String.mk (s.data.map Char.toLower)))
  | _ => .error ()

/-- The expression `v?.toLowerCase()`: nullish short-circuits to
    undefined, otherwise the method is called. -/
def optChainToLower (v : Json) : Except Unit Json :=
  if v.isNullish then .ok .undefined else jsToLowerCase v

/-- After `?.toLowerCase() || the-empty-string` the value is a string. -/
def jsStrOrEmpty (v : Json) : String :=
  match v with
  | .str s => s
  | _ => ""

/-- The model-indicator substrings checked against the node type. -/
def typeIndicators : List String :=
  ["ai", "openai", "llm", "gpt", "agent", "chat", "completion", "langchain"]

/-- The model-indicator substrings checked against the node name (the
    source checks one fewer: no langchain). -/
def nameIndicators : List String :=
  ["ai", "openai", "llm", "gpt", "agent", "chat", "completion"]

/-- The deep parameter inspection: a truthy model, prompt, system or
    messages parameter, or a truthy options.model. -/
def paramsMatch (node : Json) : Bool :=
  let ps := node.getD "parameters"
  ps.truthy &&
    ((ps.getD "model").truthy || (ps.getD "prompt").truthy ||
     (ps.getD "system").truthy || (ps.getD "messages").truthy ||
     ((ps.getD "options").truthy && ((ps.getD "options").getD "model").truthy))

/-- utils/model-detection.js isAINode (the same detection is inlined in
    n8n-langwatch-direct.js): falsy nodes classify false; then the
    lower-cased type and name are matched against the indicator
    vocabularies and the parameters are deep-inspected. -/
def isAINode (node : Json) : Except Unit Bool :=
  if !node.truthy then .ok false
  else
    match optChainToLower (node.getD "type") with
    | .error e => .error e
    | .ok nt =>
      match optChainToLower (node.getD "name") with
      | .error e => .error e
      | .ok nn =>
        let nodeType := jsStrOrEmpty (jsOr nt (.str ""))
        let nodeName := jsStrOrEmpty (jsOr nn (.str ""))
        .ok (typeIndicators.any (fun t => strIncludes nodeType t) ||
             nameIndicators.any (fun t => strIncludes nodeName t) ||
             paramsMatch node)

/-
  instrumentation/node-instrumentation.js — the runNode wrapper's catch
  branch (the same branch appears inline in n8n-langwatch-direct.js).

  A thrown host error is modelled as a non-nullish value carrying its
  message property and its String() rendering; the catch branch accesses
  only those. The wrapper result is the state after appending the error
  span together with the Except value it re-raises.
-/

structure JsError where
  message : Json
  strRepr : String

/-- The interpolated text `Error: ` followed by `error.message ||
    String(error)`. -/
def errorSpanText (e : JsError) : String :=
  "Error: " ++ (if e.message.truthy then jsToString e.message else e.strRepr)

/-- The error span the catch branch builds. -/
def mkErrorSpan (spanId : String) (aiNode : Bool) (node : Json) (e : JsError)
    (startedAt finishedAt : Int) : Json :=
  .obj [("type", .str (if aiNode then "llm" else "component")),
        ("span_id", .str spanId),
        ("input", .obj [("type", .str "json"),
                        ("value", jsOr (node.getD "parameters") (.obj []))]),
        ("output", .obj [("type", .str "text"),
                         ("value", .str (errorSpanText e))]),
        ("timestamps", .obj [("started_at", .num startedAt),
                             ("finished_at", .num finishedAt)])]

/-- The catch branch of the wrapped runNode: build the error span, hand it
    to TraceManager.addSpan, then `throw error` — re-raising the very
    error value the host call failed with. -/
def runNodeOnError (workflowId : Json) (node : Json) (spanId : String)
    (aiNode : Bool) (e : JsError) (startedAt finishedAt : Int) (st : TMState) :
    TMState × Except JsError Json :=
  let span := mkErrorSpan spanId aiNode node e startedAt finishedAt
  (addSpan workflowId span st, .error e)

/-
  utils/helpers.js — extractUserInput (the runIndex parameter of the
  source is never read in the body and is omitted). The whole body sits in
  a try/catch that returns the empty string on any thrown error, so the
  candidate gathering and the final selection are modelled in Except and
  the top-level function catches.
-/

/-- One gathered input candidate: the source location label, the value,
    and its fixed priority. -/
structure Source where
  src : String
  value : Json
  priority : Nat

/-- Candidate gathering, first block: the incoming execution data
    (executionData.data.main). -/
def collectFromExecutionData (executionData : Json) : Except Unit (List Source) :=
  match executionData.getF "data" with
  | .error e => .error e
  | .ok d =>
    if d.truthy && (d.getD "main").truthy && jsGtZero (jsLength (d.getD "main")) then
      let inputData := jsIndexNat (d.getD "main") 0
      let fallback : List Source :=
        if isObjectType inputData then
          [⟨"executionData.data.main[0]", inputData, 5⟩]
        else []
      if inputData.isArr && jsGtZero (jsLength inputData) then
        match (jsIndexNat inputData 0).getF "json" with
        | .error e => .error e
        | .ok j =>
          if j.truthy then
            .ok ((if (j.getD "chatInput").truthy then
                    [⟨"executionData.data.main[0][0].json.chatInput", j.getD "chatInput", 10⟩]
                  else []) ++
                 (if (j.getD "message").truthy then
                    [⟨"executionData.data.main[0][0].json.message", j.getD "message", 9⟩]
                  else []) ++
                 (if (j.getD "input").truthy then
                    [⟨"executionData.data.main[0][0].json.input", j.getD "input", 8⟩]
                  else []) ++
                 [⟨"executionData.data.main[0][0].json", j, 1⟩])
          else .ok fallback
      else .ok fallback
    else .ok []

/-- Candidate gathering, second block: the node parameters. The access to
    node.parameters itself throws when the node is nullish. -/
def collectFromParameters (node : Json) : Except Unit (List Source) :=
  match node.getF "parameters" with
  | .error e => .error e
  | .ok params =>
    if params.truthy then
      .ok ((if (params.getD "text").truthy then
              [⟨"node.parameters.text", params.getD "text", 3⟩]
            else []) ++
           (if (params.getD "prompt").truthy then
              [⟨"node.parameters.prompt", params.getD "prompt", 4⟩]
            else []) ++
           (if (params.getD "message").truthy then
              [⟨"node.parameters.message", params.getD "message", 4⟩]
            else []) ++
           (if (params.getD "input").truthy then
              [⟨"node.parameters.input", params.getD "input", 4⟩]
            else []) ++
           (if (params.getD "options").truthy && ((params.getD "options").getD "input").truthy then
              [⟨"node.parameters.options.input", (params.getD "options").getD "input", 6⟩]
            else []))
    else .ok []

/-- The element `nodeData[nodeData.length - 1]`; the guard established
    that the length is a positive number. -/
def jsLastByLength (v : Json) : Json :=
  match jsLength v with
  | .num n => jsIndexAt v (n - 1)
  | _ => .undefined

/-- Candidate gathering, third block: the historical run data for this
    node name inside runExecutionData.resultData.runData. -/
def collectFromRunData (node runExecutionData : Json) : Except Unit (List Source) :=
  if runExecutionData.truthy && (runExecutionData.getD "resultData").truthy &&
      ((runExecutionData.getD "resultData").getD "runData").truthy &&
      (node.getD "name").truthy then
    let runData := (runExecutionData.getD "resultData").getD "runData"
    let nodeData := runData.getD (jsToKey (node.getD "name"))
    if nodeData.truthy && jsGtZero (jsLength nodeData) then
      match (jsLastByLength nodeData).getF "data" with
      | .error e => .error e
      | .ok lrd =>
        if lrd.truthy && (lrd.getD "main").truthy && jsGtZero (jsLength (lrd.getD "main")) then
          let inputItems := jsIndexNat (lrd.getD "main") 0
          if inputItems.truthy && jsGtZero (jsLength inputItems) then
            let firstItem := jsIndexNat inputItems 0
            if firstItem.truthy && (firstItem.getD "json").truthy then
              let fj := firstItem.getD "json"
              .ok ((if (fj.getD "chatInput").truthy then
                      [⟨"runExecutionData.chatInput", fj.getD "chatInput", 7⟩]
                    else []) ++
                   (if (fj.getD "message").truthy then
                      [⟨"runExecutionData.message", fj.getD "message", 6⟩]
                    else []) ++
                   (if (fj.getD "input").truthy then
                      [⟨"runExecutionData.input", fj.getD "input", 5⟩]
                    else []))
            else .ok []
          else .ok []
        else .ok []
    else .ok []
  else .ok []

/-- All gathered candidates, in push order. -/
def collectSources (node executionData runExecutionData : Json) :
    Except Unit (List Source) :=
  match collectFromExecutionData executionData with
  | .error e => .error e
  | .ok blockOne =>
    match collectFromParameters node with
    | .error e => .error e
    | .ok blockTwo =>
      match collectFromRunData node runExecutionData with
      | .error e => .error e
      | .ok blockThree => .ok (blockOne ++ blockTwo ++ blockThree)

/-- Stable insertion of a candidate into a descending-priority list:
    the inserted element goes before the first strictly-smaller priority
    and after everything of greater or equal priority seen so far when
    folding from the right, which reproduces the stable descending order
    of the in-place comparator sort of the source. -/
def insertDesc (a : Source) : List Source → List Source
  | [] => [a]
  | b :: bs => if b.priority ≤ a.priority then a :: b :: bs else b :: insertDesc a bs

/-- The stable descending sort `sources.sort((a, b) => (b.priority || 0) -
    (a.priority || 0))` (every pushed candidate carries a priority, so the
    zero default never applies). -/
def sortDesc (l : List Source) : List Source :=
  l.foldr insertDesc []

/-- The resolution context: the source sorts in place, so the subsequent
    `sources.find(s => typeof s.value === "object")?.value || ` empty
    object runs over the sorted list. -/
def findCtx (sorted : List Source) : Json :=
  match sorted.find? (fun s => isObjectType s.value) with
  | some s => jsOr s.value (.obj [])
  | none => .obj []

/-- The selection applied to the top-priority candidate: an object value
    carrying a truthy chatInput returns that nested value (the property
    access throws — caught into the empty string — when the value is
    null, which typeof also classes as object); anything else goes
    through resolveExpression against the context. -/
def finishBest (best : Source) (sorted : List Source) (weekday datetime : String) :
    Json :=
  if isObjectType best.value then
    match best.value.getF "chatInput" with
    | .error _ => .str ""
    | .ok chatInput =>
      if chatInput.truthy then chatInput
      else resolveExpression best.value (findCtx sorted) weekday datetime
  else resolveExpression best.value (findCtx sorted) weekday datetime

/-- utils/helpers.js extractUserInput (also inlined in
    n8n-langwatch-direct.js): gather, sort descending by priority, pick
    the head; the empty candidate list and any thrown error both yield
    the empty string. -/
def extractUserInput (node executionData runExecutionData : Json)
    (weekday datetime : String) : Json :=
  match collectSources node executionData runExecutionData with
  | .error _ => .str ""
  | .ok sources =>
    match sortDesc sources with
    | [] => .str ""
    | best :: rest => finishBest best (best :: rest) weekday datetime

/-
  utils/helpers.js — estimateTokenCount and extractLLMOutput, plus the
  usage synthesis step of the runNode wrapper in n8n-langwatch-direct.js.
-/

/-- estimateTokenCount: falsy input counts zero tokens, otherwise the
    ceiling of a quarter of the String() length. -/
def estimateTokenCount (text : Json) : Nat :=
  if !text.truthy then 0
  else ((jsToString text).length + 3) / 4

/-- The output-text search of extractLLMOutput over the common field
    names, taking the first defined field, unwrapping a truthy .content
    when the field value is typeof object (a null field value makes that
    access throw). -/
def fieldLoop (outputJson : Json) : List String → Except Unit Json
  | [] => .ok (.str "")
  | field :: rest =>
    let v := outputJson.getD field
    if !v.isUndefined then
      if isObjectType v then
        match v.getF "content" with
        | .error e => .error e
        | .ok content => if content.truthy then .ok content else .ok v
      else .ok v
    else fieldLoop outputJson rest

/-- The common output field names, in search order. -/
def outputFieldNames : List String :=
  ["text", "content", "output", "completion", "response",
   "answer", "message", "result", "generated_text"]

/-- The full output-text search: the top-level output field when defined,
    else a truthy result.output, else the field-name loop, else (when the
    loop left the output falsy) the first element of choices. -/
def llmTextOf (outputJson : Json) : Except Unit Json :=
  if !(outputJson.getD "output").isUndefined then .ok (outputJson.getD "output")
  else if (outputJson.getD "result").truthy &&
      ((outputJson.getD "result").getD "output").truthy then
    .ok ((outputJson.getD "result").getD "output")
  else
    match fieldLoop outputJson outputFieldNames with
    | .error e => .error e
    | .ok llm =>
      if !llm.truthy && (outputJson.getD "choices").truthy &&
          jsGtZero (jsLength (outputJson.getD "choices")) then
        let choice := jsIndexNat (outputJson.getD "choices") 0
        match choice.getF "message" with
        | .error e => .error e
        | .ok message =>
          if message.truthy && (message.getD "content").truthy then
            .ok (message.getD "content")
          else
            match choice.getF "text" with
            | .error e => .error e
            | .ok text => if text.truthy then .ok text else .ok llm
      else .ok llm

/-- The usage the code extracts from the first output row: the first
    truthy of the usage and tokenUsage fields, else null. No other
    location — in particular not result.usage — is consulted. -/
def usageOf (outputJson : Json) : Json :=
  if (outputJson.getD "usage").truthy then outputJson.getD "usage"
  else if (outputJson.getD "tokenUsage").truthy then outputJson.getD "tokenUsage"
  else .null

/-- The first output row's json body, `outputData[0]?.json`. -/
def firstRowJson (outputData : Json) : Json :=
  jsOptChainField (jsIndexNat outputData 0) "json"

/-- utils/helpers.js extractLLMOutput: starting from the empty output text
    and null usage, inspect the first row's json body for the output text
    and the usage counters. -/
def extractLLMOutput (outputData : Json) : Except Unit (Json × Json) :=
  if outputData.truthy && jsGtZero (jsLength outputData) then
    let outputJson := firstRowJson outputData
    if outputJson.truthy then
      match llmTextOf outputJson with
      | .error e => .error e
      | .ok llmOutput => .ok (llmOutput, usageOf outputJson)
    else .ok (.str "", .null)
  else .ok (.str "", .null)

/-- The usage synthesis of the runNode wrapper: when no usage was
    extracted but some text (output, user input or system message) was
    found, estimate the three counters from the text lengths. -/
def synthesizeUsage (usage llmOutput userInput systemMessage : Json) : Json :=
  if !usage.truthy && (llmOutput.truthy || userInput.truthy || systemMessage.truthy) then
    .obj [("prompt_tokens",
           .num (Int.ofNat (estimateTokenCount systemMessage + estimateTokenCount userInput))),
          ("completion_tokens", .num (Int.ofNat (estimateTokenCount llmOutput))),
          ("total_tokens",
           .num (Int.ofNat (estimateTokenCount systemMessage + estimateTokenCount userInput +
                            estimateTokenCount llmOutput)))]
  else usage

/-
  Theorems. Each claim of the specification gets one theorem below,
  preceded by a doc comment naming the claim.
-/

/-- C8: resolveExpression maps the template for json field foo applied to
    a context binding foo to "bar" to "bar"; a string with no leading
    equals sign passes through unchanged; a template whose content
    resolves neither through the json step nor the date-template branch is
    returned verbatim with only the leading equals sign stripped; and
    every non-string input is returned unchanged. -/
theorem resolveExpression_spec :
    (∀ weekday datetime,
       resolveExpression (.str "=$json.foo") (.obj [("foo", .str "bar")]) weekday datetime
         = .str "bar") ∧
    (∀ s data weekday datetime, startsWithEq s = false →
       resolveExpression (.str s) data weekday datetime = .str s) ∧
    (∀ s data weekday datetime, startsWithEq s = true →
       jsonStep (strTail s) data = none →
       strIncludes (strTail s) "$now.format" = false →
       resolveExpression (.str s) data weekday datetime = .str (strTail s)) ∧
    (∀ v data weekday datetime, v.isStr = false →
       resolveExpression v data weekday datetime = v) := by
  refine ⟨fun _ _ => rfl, ?_, ?_, ?_⟩
  · intro s data weekday datetime h
    simp [resolveExpression, h]
  · intro s data weekday datetime h1 h2 h3
    simp [resolveExpression, h1, h2, h3]
  · intro v data weekday datetime h
    cases v <;> simp [Json.isStr] at h <;> rfl

/-- Witness for C8 at concrete inputs: the passthrough case on "plain",
    the unresolvable-template case, and a non-string input. -/
theorem resolveExpression_spec_witness :
    resolveExpression (.str "plain") (.obj []) "w" "d" = .str "plain" ∧
    resolveExpression (.str "=$json.missing") (.obj []) "w" "d" = .str "$json.missing" ∧
    resolveExpression (.num 5) (.obj []) "w" "d" = .num 5 := by
  refine ⟨resolveExpression_spec.2.1 "plain" (.obj []) "w" "d" (by decide), ?_, ?_⟩
  · have h := resolveExpression_spec.2.2.1 "=$json.missing" (.obj []) "w" "d"
      (by decide) (by rfl) (by decide)
    simpa using h
  · exact resolveExpression_spec.2.2.2 (.num 5) (.obj []) "w" "d" rfl



/-- Unfolding of a retry-budgeted step observing a response. -/
theorem sendRequestAux_succ_response (events : Nat → HttpEvent) (r attempt status : Nat)
    (body : String) (hev : events attempt = .response status body) :
    sendRequestAux events (r + 1) attempt =
      if 200 ≤ status ∧ status < 300 then (attempt, [], .resolved body)
      else if 500 ≤ status then
        ((sendRequestAux events r (attempt + 1)).1,
         2 ^ attempt :: (sendRequestAux events r (attempt + 1)).2.1,
         (sendRequestAux events r (attempt + 1)).2.2)
      else (attempt, [], .rejected (httpErrMsg status body)) := by
  simp only [sendRequestAux]
  rw [hev]

/-- Unfolding of a retry-budgeted step observing a connection error. -/
theorem sendRequestAux_succ_conn (events : Nat → HttpEvent) (r attempt : Nat)
    (msg : String) (hev : events attempt = .connError msg) :
    sendRequestAux events (r + 1) attempt =
      ((sendRequestAux events r (attempt + 1)).1,
       2 ^ attempt :: (sendRequestAux events r (attempt + 1)).2.1,
       (sendRequestAux events r (attempt + 1)).2.2) := by
  simp only [sendRequestAux]
  rw [hev]

/-- Unfolding of a retry-budgeted step observing a timeout. -/
theorem sendRequestAux_succ_timeout (events : Nat → HttpEvent) (r attempt : Nat)
    (hev : events attempt = .timedOut) :
    sendRequestAux events (r + 1) attempt =
      ((sendRequestAux events r (attempt + 1)).1,
       2 ^ attempt :: (sendRequestAux events r (attempt + 1)).2.1,
       (sendRequestAux events r (attempt + 1)).2.2) := by
  simp only [sendRequestAux]
  rw [hev]

/-- Structure of the retry loop: starting at any attempt number with any
    remaining-retry budget, the last attempt number is bounded by the
    budget, the recorded backoff delays are exactly two to the power of
    each retried attempt number, and every attempt that was followed by a
    retry observed a retryable event (5xx, connection error or timeout). -/
theorem sendRequestAux_spec (events : Nat → HttpEvent) :
    ∀ (remaining attempt a : Nat) (ds : List Nat) (o : ReqOutcome),
      sendRequestAux events remaining attempt = (a, ds, o) →
      attempt ≤ a ∧ a ≤ attempt + remaining ∧
        ds = backoffList attempt (a - attempt) ∧
        ∀ i, attempt ≤ i → i < a → retryable (events i) = true := by
  intro remaining
  induction remaining with
  | zero =>
    intro attempt a ds o h
    simp only [sendRequestAux] at h
    have hterm : a = attempt ∧ ds = [] := by
      cases hev : events attempt <;> rw [hev] at h <;> simp [finalAttempt] at h
      · split at h <;> simp_all
      · simp_all
      · simp_all
    obtain ⟨rfl, rfl⟩ := hterm
    exact ⟨le_refl _, by omega, by simp [backoffList],
           fun i hi1 hi2 => absurd hi2 (by omega)⟩
  | succ r ih =>
    intro attempt a ds o h
    cases hev : events attempt with
    | response status body =>
      rw [sendRequestAux_succ_response events r attempt status body hev] at h
      by_cases h2xx : 200 ≤ status ∧ status < 300
      · rw [if_pos h2xx] at h
        have hterm : a = attempt ∧ ds = [] := by simp_all
        obtain ⟨rfl, rfl⟩ := hterm
        exact ⟨le_refl _, by omega, by simp [backoffList],
               fun i hi1 hi2 => absurd hi2 (by omega)⟩
      · by_cases h5xx : 500 ≤ status
        · rcases hrec : sendRequestAux events r (attempt + 1) with ⟨a2, ds2, o2⟩
          rw [if_neg h2xx, if_pos h5xx, hrec] at h
          simp at h
          obtain ⟨rfl, rfl, rfl⟩ := h
          obtain ⟨iha, ihb, ihd, ihr⟩ := ih (attempt + 1) a2 ds2 o2 hrec
          refine ⟨by omega, by omega, ?_, ?_⟩
          · have hk : a2 - attempt = (a2 - (attempt + 1)) + 1 := by omega
            rw [hk]
            simp [backoffList, ihd]
          · intro i hi1 hi2
            rcases Nat.eq_or_lt_of_le hi1 with rfl | hlt
            · simp [retryable, hev, h5xx]
            · exact ihr i hlt hi2
        · rw [if_neg h2xx, if_neg h5xx] at h
          have hterm : a = attempt ∧ ds = [] := by simp_all
          obtain ⟨rfl, rfl⟩ := hterm
          exact ⟨le_refl _, by omega, by simp [backoffList],
                 fun i hi1 hi2 => absurd hi2 (by omega)⟩
    | connError msg =>
      rcases hrec : sendRequestAux events r (attempt + 1) with ⟨a2, ds2, o2⟩
      rw [sendRequestAux_succ_conn events r attempt msg hev, hrec] at h
      simp at h
      obtain ⟨rfl, rfl, rfl⟩ := h
      obtain ⟨iha, ihb, ihd, ihr⟩ := ih (attempt + 1) a2 ds2 o2 hrec
      refine ⟨by omega, by omega, ?_, ?_⟩
      · have hk : a2 - attempt = (a2 - (attempt + 1)) + 1 := by omega
        rw [hk]
        simp [backoffList, ihd]
      · intro i hi1 hi2
        rcases Nat.eq_or_lt_of_le hi1 with rfl | hlt
        · simp [retryable, hev]
        · exact ihr i hlt hi2
    | timedOut =>
      rcases hrec : sendRequestAux events r (attempt + 1) with ⟨a2, ds2, o2⟩
      rw [sendRequestAux_succ_timeout events r attempt hev, hrec] at h
      simp at h
      obtain ⟨rfl, rfl, rfl⟩ := h
      obtain ⟨iha, ihb, ihd, ihr⟩ := ih (attempt + 1) a2 ds2 o2 hrec
      refine ⟨by omega, by omega, ?_, ?_⟩
      · have hk : a2 - attempt = (a2 - (attempt + 1)) + 1 := by omega
        rw [hk]
        simp [backoffList, ihd]
      · intro i hi1 hi2
        rcases Nat.eq_or_lt_of_le hi1 with rfl | hlt
        · simp [retryable, hev]
        · exact ihr i hlt hi2

/-- C1: the sendRequest retry loop retries exactly on 5xx, connection
    error and timeout while the attempt counter is below the configured
    maximum (default 3), sleeping two to the power of the attempt number
    in seconds before each retry. With the default maximum, an endpoint
    answering 503 twice and then 200 yields exactly three attempts and a
    resolved outcome, and an endpoint answering 404 yields exactly one
    attempt and a rejected outcome. The general part bounds the attempt
    count by the maximum, shows the recorded delays are exactly the
    exponential backoff sequence for the retried attempt numbers, and
    shows every retried attempt observed a retryable event while strictly
    below the maximum. -/
theorem exportRetry_spec :
    (sendRequest 3 (fun n => if n ≤ 2 then .response 503 "unavailable" else .response 200 "ok")
       = (3, [2, 4], .resolved "ok")) ∧
    (sendRequest 3 (fun _ => .response 404 "not found")
       = (1, [], .rejected (httpErrMsg 404 "not found"))) ∧
    (∀ maxRetries events a ds o, sendRequest maxRetries events = (a, ds, o) →
       1 ≤ a ∧ a ≤ max maxRetries 1 ∧ ds = backoffList 1 (a - 1) ∧
         ∀ i, 1 ≤ i → i < a → retryable (events i) = true ∧ i < maxRetries) := by
  refine ⟨by decide, by rfl, ?_⟩
  intro maxRetries events a ds o h
  obtain ⟨ha, hb, hd, hr⟩ := sendRequestAux_spec events (maxRetries - 1) 1 a ds o h
  exact ⟨ha, by omega, hd, fun i hi1 hi2 => ⟨hr i hi1 hi2, by omega⟩⟩

/-- Witness for C1: the general part applied to a single 404 attempt with
    the default maximum of three. -/
theorem exportRetry_spec_witness :
    1 ≤ 1 ∧ 1 ≤ max 3 1 ∧ ([] : List Nat) = backoffList 1 (1 - 1) ∧
      ∀ i, 1 ≤ i → i < 1 →
        retryable ((fun _ => HttpEvent.response 404 "not found") i) = true ∧ i < 3 :=
  exportRetry_spec.2.2 3 (fun _ => .response 404 "not found") 1 []
    (.rejected (httpErrMsg 404 "not found")) (by rfl)

/-- C3: a step appended under a run key before the run is registered is
    queued as an orphan, and registering the run drains the orphan queue
    into the fresh run record in arrival order — so with no earlier
    orphans the step sits at position 0 of the run's span sequence — and
    clears the orphan queue for that key. -/
theorem orphanDrain_spec (workflow span : Json) (st : TMState) (now : Int)
    (hrun : lookupJ st.workflowExecutions (wfKey workflow) = none) :
    ((createWorkflowExecution workflow now
        (addSpan (wfKey workflow) span st)).2.spans
      = ((lookupJ st.pendingNodeExecutions (wfKey workflow)).getD []) ++ [span]) ∧
    lookupJ (createWorkflowExecution workflow now
        (addSpan (wfKey workflow) span st)).1.pendingNodeExecutions (wfKey workflow)
      = none ∧
    lookupJ (createWorkflowExecution workflow now
        (addSpan (wfKey workflow) span st)).1.workflowExecutions (wfKey workflow)
      = some (createWorkflowExecution workflow now
          (addSpan (wfKey workflow) span st)).2 := by
  cases hp : lookupJ st.pendingNodeExecutions (wfKey workflow) with
  | none =>
    simp [addSpan, hrun, hp, createWorkflowExecution, lookupJ_setKeyJ_self,
          lookupJ_eraseKeyJ_self]
  | some q =>
    simp [addSpan, hrun, hp, createWorkflowExecution, lookupJ_setKeyJ_self,
          lookupJ_eraseKeyJ_self]

/-- Witness for C3: a single step appended for run1 before the run is
    registered ends up at position 0 and the orphan queue is cleared. -/
theorem orphanDrain_spec_witness :
    ((createWorkflowExecution (.obj [("id", .str "run1")]) 0
        (addSpan (wfKey (.obj [("id", .str "run1")])) (.str "stepA") ⟨[], []⟩)).2.spans
      = [.str "stepA"]) ∧
    lookupJ (createWorkflowExecution (.obj [("id", .str "run1")]) 0
        (addSpan (wfKey (.obj [("id", .str "run1")])) (.str "stepA") ⟨[], []⟩)).1.pendingNodeExecutions
      (wfKey (.obj [("id", .str "run1")])) = none := by
  have h := orphanDrain_spec (.obj [("id", .str "run1")]) (.str "stepA") ⟨[], []⟩ 0 rfl
  exact ⟨by simpa using h.1, h.2.1⟩

/-- C10: completing a run that has no entry in the buffer is a complete
    no-op: the state (both the runs map and the orphan queue) is returned
    unchanged, no summary span is appended anywhere, and no run is handed
    to the exporter. -/
theorem closeUnknownRun_noop_spec (workflowId result : Json) (now : Int) (st : TMState)
    (h : lookupJ st.workflowExecutions workflowId = none) :
    completeWorkflowExecution workflowId result now st = (st, none) := by
  simp [completeWorkflowExecution, h]

/-- Witness for C10: completing an unregistered run on the empty state. -/
theorem closeUnknownRun_noop_spec_witness :
    completeWorkflowExecution (.str "ghost") .null 0 ⟨[], []⟩ = (⟨[], []⟩, none) :=
  closeUnknownRun_noop_spec (.str "ghost") .null 0 ⟨[], []⟩ rfl

/-- The run record after one completeWorkflowExecution: the summary span
    appended and the record marked complete. -/
def closedRun (ed : RunData) (result : Json) (t : Int) : RunData :=
  { ed with spans := ed.spans ++ [mkWorkflowSpan ed result t], isComplete := true }

/-- Unfolding of completeWorkflowExecution on a buffered run. -/
theorem completeWorkflowExecution_found (workflowId result : Json) (now : Int)
    (st : TMState) (ed : RunData)
    (h : lookupJ st.workflowExecutions workflowId = some ed) :
    completeWorkflowExecution workflowId result now st
      = (⟨setKeyJ workflowId (closedRun ed result now) st.workflowExecutions,
          st.pendingNodeExecutions⟩, some (closedRun ed result now)) := by
  simp [completeWorkflowExecution, closedRun, h]

/-- C7: completeWorkflowExecution does not check isComplete, so closing a
    still-buffered run twice appends two workflow-summary spans (span
    type the literal "workflow") to the run's span sequence. -/
theorem closeRun_not_idempotent_spec (workflowId result1 result2 : Json) (t1 t2 : Int)
    (st : TMState) (ed : RunData)
    (h : lookupJ st.workflowExecutions workflowId = some ed) :
    ∃ sp1 sp2 ed2,
      lookupJ ((completeWorkflowExecution workflowId result2 t2
          (completeWorkflowExecution workflowId result1 t1 st).1).1).workflowExecutions
        workflowId = some ed2 ∧
      ed2.spans = ed.spans ++ [sp1, sp2] ∧
      sp1.getD "type" = .str "workflow" ∧
      sp2.getD "type" = .str "workflow" ∧
      ed2.isComplete = true := by
  have h1 := completeWorkflowExecution_found workflowId result1 t1 st ed h
  have h2 := completeWorkflowExecution_found workflowId result2 t2
    ⟨setKeyJ workflowId (closedRun ed result1 t1) st.workflowExecutions,
     st.pendingNodeExecutions⟩
    (closedRun ed result1 t1) (lookupJ_setKeyJ_self _ _ _)
  refine ⟨mkWorkflowSpan ed result1 t1,
          mkWorkflowSpan (closedRun ed result1 t1) result2 t2,
          closedRun (closedRun ed result1 t1) result2 t2, ?_, ?_, ?_, ?_, ?_⟩
  · simp only [h1, h2, lookupJ_setKeyJ_self]
  · simp [closedRun]
  · simp [mkWorkflowSpan, Json.getD, lookupField]
  · simp [mkWorkflowSpan, Json.getD, lookupField]
  · rfl

/-- Witness for C7: double-closing a concrete buffered run. -/
theorem closeRun_not_idempotent_spec_witness :
    ∃ sp1 sp2 ed2,
      lookupJ ((completeWorkflowExecution (.str "w1") .null 2
          (completeWorkflowExecution (.str "w1") .null 1
            ⟨[(.str "w1", ⟨.obj [("id", .str "w1")], "t", 0, [], false⟩)], []⟩).1).1).workflowExecutions
        (.str "w1") = some ed2 ∧
      ed2.spans = (⟨.obj [("id", .str "w1")], "t", 0, [], false⟩ : RunData).spans ++ [sp1, sp2] ∧
      sp1.getD "type" = .str "workflow" ∧
      sp2.getD "type" = .str "workflow" ∧
      ed2.isComplete = true :=
  closeRun_not_idempotent_spec (.str "w1") .null .null 1 2
    ⟨[(.str "w1", ⟨.obj [("id", .str "w1")], "t", 0, [], false⟩)], []⟩
    ⟨.obj [("id", .str "w1")], "t", 0, [], false⟩ (by rfl)

/-- Counterexample to C2 as stated: in the TraceManager implementation a
    failed export leaves the run entry in the buffer — the delete sits
    after the awaited send inside the try block, and the catch only logs.
    Here a run stored under key "w1" is still present after a failed
    export attempt completes. -/
theorem exportFailure_keeps_run_cex :
    (lookupJ (sendWorkflowToLangWatchTM false
        ⟨.obj [("id", .str "w1")], "t", 0, [], true⟩
        ⟨[(.str "w1", ⟨.obj [("id", .str "w1")], "t", 0, [], true⟩)], []⟩).workflowExecutions
      (.str "w1")).isSome = true := by
  rfl

/-- C2 (amended): removal of the run entry after an export attempt is
    implementation-dependent. In the n8n-langwatch-direct.js variant the
    delete sits in a .finally continuation, so once the trace payload is
    built the entry is removed whatever the export outcome; in the
    TraceManager variant the entry is removed only after a successful
    export, and a failed export leaves the whole state unchanged (the
    entry stays in the buffer). -/
theorem export_cleanup_amended :
    (∀ (exportOk : Bool) (ed : RunData) (st : TMState) (idv : Json),
       ed.workflow.getF "id" = .ok idv →
       lookupJ (sendWorkflowToLangWatchDirect exportOk ed st).workflowExecutions idv
         = none) ∧
    (∀ (ed : RunData) (st : TMState) (idv : Json),
       ed.workflow.getF "id" = .ok idv →
       lookupJ (sendWorkflowToLangWatchTM true ed st).workflowExecutions idv = none) ∧
    (∀ (ed : RunData) (st : TMState), sendWorkflowToLangWatchTM false ed st = st) := by
  refine ⟨?_, ?_, ?_⟩
  · intro exportOk ed st idv h
    simp [sendWorkflowToLangWatchDirect, h, lookupJ_eraseKeyJ_self]
  · intro ed st idv h
    simp [sendWorkflowToLangWatchTM, h, lookupJ_eraseKeyJ_self]
  · intro ed st
    unfold sendWorkflowToLangWatchTM
    cases h : ed.workflow.getF "id" <;> simp

/-- Witness for C2 (amended): the direct variant removes the concrete run
    entry even when the export failed. -/
theorem export_cleanup_amended_witness :
    lookupJ (sendWorkflowToLangWatchDirect false
        ⟨.obj [("id", .str "w1")], "t", 0, [], true⟩
        ⟨[(.str "w1", ⟨.obj [("id", .str "w1")], "t", 0, [], true⟩)], []⟩).workflowExecutions
      (.str "w1") = none :=
  export_cleanup_amended.1 false
    ⟨.obj [("id", .str "w1")], "t", 0, [], true⟩
    ⟨[(.str "w1", ⟨.obj [("id", .str "w1")], "t", 0, [], true⟩)], []⟩
    (.str "w1") (by rfl)

/-- C4: when the wrapped host call fails, the runNode wrapper's catch
    branch appends a step record whose output is the text
    `Error: ` followed by the error message, and re-raises exactly the
    original error value (here for a run already buffered, so the span
    lands in the run's span sequence). -/
theorem runNodeError_spec (workflowId node : Json) (spanId : String) (aiNode : Bool)
    (e : JsError) (t0 t1 : Int) (st : TMState) (ed : RunData) (m : String)
    (hmsg : e.message = .str m) (hm : (Json.str m).truthy = true)
    (hrun : lookupJ st.workflowExecutions workflowId = some ed) :
    (runNodeOnError workflowId node spanId aiNode e t0 t1 st).2 = .error e ∧
    ∃ sp,
      lookupJ (runNodeOnError workflowId node spanId aiNode e t0 t1 st).1.workflowExecutions
        workflowId = some { ed with spans := ed.spans ++ [sp] } ∧
      sp.getD "output" = .obj [("type", .str "text"), ("value", .str ("Error: " ++ m))] := by
  refine ⟨rfl, mkErrorSpan spanId aiNode node e t0 t1, ?_, ?_⟩
  · simp [runNodeOnError, addSpan, hrun, lookupJ_setKeyJ_self]
  · simp [mkErrorSpan, Json.getD, lookupField, errorSpanText, hmsg, hm, jsToString]

/-- Witness for C4: a concrete failing host call over a buffered run. -/
theorem runNodeError_spec_witness :
    ((runNodeOnError (.str "w1") (.obj []) "span1" false ⟨.str "boom", "Error"⟩ 0 1
        ⟨[(.str "w1", ⟨.obj [("id", .str "w1")], "t", 0, [], false⟩)], []⟩).2
      = .error ⟨.str "boom", "Error"⟩) ∧
    ∃ sp,
      lookupJ (runNodeOnError (.str "w1") (.obj []) "span1" false ⟨.str "boom", "Error"⟩ 0 1
          ⟨[(.str "w1", ⟨.obj [("id", .str "w1")], "t", 0, [], false⟩)], []⟩).1.workflowExecutions
        (.str "w1")
        = some { (⟨.obj [("id", .str "w1")], "t", 0, [], false⟩ : RunData) with
                 spans := (⟨.obj [("id", .str "w1")], "t", 0, [], false⟩ : RunData).spans ++ [sp] } ∧
      sp.getD "output" = .obj [("type", .str "text"), ("value", .str ("Error: " ++ "boom"))] :=
  runNodeError_spec (.str "w1") (.obj []) "span1" false ⟨.str "boom", "Error"⟩ 0 1
    ⟨[(.str "w1", ⟨.obj [("id", .str "w1")], "t", 0, [], false⟩)], []⟩
    ⟨.obj [("id", .str "w1")], "t", 0, [], false⟩ "boom" rfl (by decide) (by rfl)

/-- Counterexample to C6 as stated: a node whose declared type is a
    number (non-nullish, non-string) makes isAINode throw a TypeError —
    the optional chain only short-circuits on nullish values, and a
    number has no toLowerCase method. -/
theorem isAINode_raises_cex :
    isAINode (.obj [("type", .num 3)]) = .error () := by
  rfl

/-- A value on which the optional-chained toLowerCase call cannot throw:
    nullish or a string. -/
def nullishOrStr : Json → Bool
  | .undefined => true
  | .null => true
  | .str _ => true
  | _ => false

/-- The optional-chained toLowerCase call succeeds on nullish-or-string
    values. -/
theorem optChainToLower_ok (v : Json) (h : nullishOrStr v = true) :
    ∃ w, optChainToLower v = .ok w := by
  cases v <;> simp [nullishOrStr] at h <;> exact ⟨_, rfl⟩

/-- C6 (amended): isAINode never throws and returns a boolean provided
    the node's type and name fields are each absent, null or a string;
    the parameters field may have any shape whatsoever (any non-nullish
    malformed value there is tolerated, since every parameter access is
    truthiness-guarded). A non-string, non-nullish type or name value
    makes the function throw. -/
theorem isAINode_total_amended (node : Json)
    (htype : nullishOrStr (node.getD "type") = true)
    (hname : nullishOrStr (node.getD "name") = true) :
    ∃ b, isAINode node = .ok b := by
  by_cases ht : node.truthy
  · obtain ⟨w1, e1⟩ := optChainToLower_ok _ htype
    obtain ⟨w2, e2⟩ := optChainToLower_ok _ hname
    have heq : isAINode node
        = .ok ((typeIndicators.any fun t => strIncludes (jsStrOrEmpty (jsOr w1 (.str ""))) t) ||
               (nameIndicators.any fun t => strIncludes (jsStrOrEmpty (jsOr w2 (.str ""))) t) ||
               paramsMatch node) := by
      simp [isAINode, ht, e1, e2]
    exact ⟨_, heq⟩
  · exact ⟨false, by simp [isAINode, ht]⟩

/-- Witness for C6 (amended): a node with a string type and a thoroughly
    malformed parameters value classifies without throwing. -/
theorem isAINode_total_amended_witness :
    ∃ b, isAINode (.obj [("type", .str "OpenAI-Chat"), ("parameters", .num 7)]) = .ok b :=
  isAINode_total_amended (.obj [("type", .str "OpenAI-Chat"), ("parameters", .num 7)])
    (by decide) (by decide)

/-- Membership in an insertion. -/
theorem mem_insertDesc {a d : Source} :
    ∀ {l : List Source}, d ∈ insertDesc a l → d = a ∨ d ∈ l := by
  intro l
  induction l with
  | nil =>
    intro h
    simp [insertDesc] at h
    exact Or.inl h
  | cons b bs ih =>
    intro h
    simp only [insertDesc] at h
    split at h
    · rcases List.mem_cons.mp h with h1 | h2
      · exact Or.inl h1
      · exact Or.inr h2
    · rcases List.mem_cons.mp h with h1 | h2
      · exact Or.inr (by simp [h1])
      · rcases ih h2 with h3 | h4
        · exact Or.inl h3
        · exact Or.inr (List.mem_cons_of_mem _ h4)

/-- Sorting does not invent elements. -/
theorem mem_sortDesc {d : Source} :
    ∀ {l : List Source}, d ∈ sortDesc l → d ∈ l := by
  intro l
  induction l with
  | nil =>
    intro h
    simp [sortDesc] at h
  | cons x xs ih =>
    intro h
    have hstep : sortDesc (x :: xs) = insertDesc x (sortDesc xs) := rfl
    rw [hstep] at h
    rcases mem_insertDesc h with h1 | h2
    · simp [h1]
    · exact List.mem_cons_of_mem _ (ih h2)

/-- Inserting an element whose priority dominates the whole list puts it
    in front. -/
theorem insertDesc_top (a : Source) (l : List Source)
    (h : ∀ d ∈ l, d.priority ≤ a.priority) : insertDesc a l = a :: l := by
  cases l with
  | nil => rfl
  | cons b bs =>
    simp only [insertDesc]
    rw [if_pos (h b (by simp))]

/-- The head of the stable descending sort is the strict maximum when one
    exists. -/
theorem sortDesc_head_max (c : Source) :
    ∀ (l : List Source), c ∈ l →
      (∀ d ∈ l, d = c ∨ d.priority < c.priority) →
      ∃ rest, sortDesc l = c :: rest := by
  intro l
  induction l with
  | nil =>
    intro hmem _
    cases hmem
  | cons x xs ih =>
    intro hmem hmax
    have hstep : sortDesc (x :: xs) = insertDesc x (sortDesc xs) := rfl
    rcases hmax x (by simp) with hxc | hxlt
    · subst hxc
      refine ⟨sortDesc xs, ?_⟩
      rw [hstep, insertDesc_top]
      intro d hd
      rcases hmax d (List.mem_cons_of_mem _ (mem_sortDesc hd)) with rfl | hlt
      · exact le_refl _
      · exact le_of_lt hlt
    · have hcxs : c ∈ xs := by
        rcases List.mem_cons.mp hmem with hcx | h2
        · exact absurd hxlt (by rw [hcx]; exact lt_irrefl _)
        · exact h2
      obtain ⟨rest, hrest⟩ := ih hcxs (fun d hd => hmax d (List.mem_cons_of_mem _ hd))
      rw [hstep, hrest]
      refine ⟨insertDesc x rest, ?_⟩
      simp only [insertDesc]
      rw [if_neg (by omega)]

/-- C5: whenever candidate gathering succeeds and one gathered candidate
    strictly dominates every other in priority, extractUserInput returns
    the selection applied to that candidate — its value with the nested
    chatInput unwrapped when present, otherwise template-resolved against
    the context — and an empty candidate list yields the empty string. -/
theorem extractUserInput_priority_spec :
    (∀ (node executionData runExecutionData : Json) (weekday datetime : String)
       (l : List Source) (c : Source),
       collectSources node executionData runExecutionData = .ok l →
       c ∈ l →
       (∀ d ∈ l, d = c ∨ d.priority < c.priority) →
       extractUserInput node executionData runExecutionData weekday datetime
         = finishBest c (sortDesc l) weekday datetime) ∧
    (∀ (node executionData runExecutionData : Json) (weekday datetime : String),
       collectSources node executionData runExecutionData = .ok [] →
       extractUserInput node executionData runExecutionData weekday datetime = .str "") := by
  constructor
  · intro node ed red weekday datetime l c hcol hmem hmax
    obtain ⟨rest, hrest⟩ := sortDesc_head_max c l hmem hmax
    simp [extractUserInput, hcol, hrest]
  · intro node ed red weekday datetime hcol
    simp [extractUserInput, hcol, sortDesc]

/-- Concrete node for the C5 witness: a text parameter at priority 3. -/
def c5node : Json := .obj [("parameters", .obj [("text", .str "para")])]

/-- Concrete execution data for the C5 witness: incoming json carrying
    chatInput (priority 10) and input (priority 8). -/
def c5ed : Json :=
  .obj [("data", .obj [("main",
    .arr [.arr [.obj [("json",
      .obj [("chatInput", .str "hello"), ("input", .str "inp")])]]])])]

/-- The candidates gathered from the C5 witness inputs, in push order,
    at priorities 10, 8, 1 and 3. -/
def c5list : List Source :=
  [⟨"executionData.data.main[0][0].json.chatInput", .str "hello", 10⟩,
   ⟨"executionData.data.main[0][0].json.input", .str "inp", 8⟩,
   ⟨"executionData.data.main[0][0].json",
    .obj [("chatInput", .str "hello"), ("input", .str "inp")], 1⟩,
   ⟨"node.parameters.text", .str "para", 3⟩]

/-- The priority-10 candidate of the C5 witness. -/
def c5best : Source :=
  ⟨"executionData.data.main[0][0].json.chatInput", .str "hello", 10⟩

/-- Witness for C5: on candidates at priorities 10, 8, 1 and 3 the
    priority-10 candidate is selected (its resolved value being the
    chatInput string), and inputs gathering no candidates yield the empty
    string. -/
theorem extractUserInput_priority_spec_witness :
    (extractUserInput c5node c5ed .null "w" "d"
       = finishBest c5best (sortDesc c5list) "w" "d") ∧
    extractUserInput c5node c5ed .null "w" "d" = .str "hello" ∧
    extractUserInput (.obj []) (.obj []) .null "w" "d" = .str "" := by
  refine ⟨?_, by rfl, extractUserInput_priority_spec.2 (.obj []) (.obj []) .null "w" "d" (by rfl)⟩
  refine extractUserInput_priority_spec.1 c5node c5ed .null "w" "d" c5list c5best
    (by rfl) (List.Mem.head _) ?_
  intro d hd
  rcases List.mem_cons.mp hd with h1 | hd
  · exact Or.inl h1
  · rcases List.mem_cons.mp hd with h1 | hd
    · exact Or.inr (by rw [h1]; decide)
    · rcases List.mem_cons.mp hd with h1 | hd
      · exact Or.inr (by rw [h1]; decide)
      · rcases List.mem_cons.mp hd with h1 | hd
        · exact Or.inr (by rw [h1]; decide)
        · cases hd

/-- Counterexample to C9 as stated: a first output row whose json carries
    a usage object only under result.usage. The extraction returns a null
    usage — result.usage is never consulted (only the top-level usage and
    tokenUsage fields are) — even though the nested field is present. -/
theorem usage_resultUsage_cex :
    extractLLMOutput
        (.arr [.obj [("json",
          .obj [("result", .obj [("usage", .obj [("prompt_tokens", .num 5)])])])]])
      = .ok (.obj [("usage", .obj [("prompt_tokens", .num 5)])], .null) ∧
    ((firstRowJson (.arr [.obj [("json",
          .obj [("result", .obj [("usage", .obj [("prompt_tokens", .num 5)])])])]])).getD
        "result").getD "usage"
      = .obj [("prompt_tokens", .num 5)] := by
  exact ⟨rfl, rfl⟩

/-- C9 (amended): the usage figure extracted from a step's output rows is
    the first truthy of the fields usage and tokenUsage in the first
    row's json (result.usage is not consulted); when the extracted usage
    is falsy but some text (output, user input or system message) was
    found, a usage record is synthesized with estimateTokens applied
    separately to the system message, the user input and the output, the
    total being their sum; and estimateTokens is the ceiling of a quarter
    of the length, with estimateTokens of "abcd", "" and null being 1, 0
    and 0. -/
theorem usage_extraction_amended :
    (∀ (outputData llm us : Json),
       (outputData.truthy && jsGtZero (jsLength outputData)) = true →
       (firstRowJson outputData).truthy = true →
       extractLLMOutput outputData = .ok (llm, us) →
       us = usageOf (firstRowJson outputData)) ∧
    (∀ usage llmOutput userInput systemMessage : Json,
       usage.truthy = false →
       (llmOutput.truthy || userInput.truthy || systemMessage.truthy) = true →
       synthesizeUsage usage llmOutput userInput systemMessage
         = .obj [("prompt_tokens",
                  .num (Int.ofNat (estimateTokenCount systemMessage
                                   + estimateTokenCount userInput))),
                 ("completion_tokens", .num (Int.ofNat (estimateTokenCount llmOutput))),
                 ("total_tokens",
                  .num (Int.ofNat (estimateTokenCount systemMessage
                                   + estimateTokenCount userInput
                                   + estimateTokenCount llmOutput)))]) ∧
    estimateTokenCount (.str "abcd") = 1 ∧
    estimateTokenCount (.str "") = 0 ∧
    estimateTokenCount .null = 0 := by
  refine ⟨?_, ?_, by rfl, by rfl, by rfl⟩
  · intro outputData llm us hguard hoj h
    rw [extractLLMOutput] at h
    rw [if_pos hguard] at h
    rw [if_pos hoj] at h
    cases htext : llmTextOf (firstRowJson outputData) <;> rw [htext] at h
    · cases h
    · simp at h
      exact h.2.symm
  · intro usage llmOutput userInput systemMessage h1 h2
    simp [synthesizeUsage, h1, h2]

/-- Witness for C9 (amended): a concrete output row with a truthy usage
    field, and a concrete synthesis from text only. -/
theorem usage_extraction_amended_witness :
    ((.obj [("total_tokens", .num 7)] : Json)
       = usageOf (firstRowJson (.arr [.obj [("json",
           .obj [("output", .str "hi"), ("usage", .obj [("total_tokens", .num 7)])])]]))) ∧
    synthesizeUsage .null (.str "hello") (.str "abcd") .null
      = .obj [("prompt_tokens",
               .num (Int.ofNat (estimateTokenCount (Json.null) + estimateTokenCount (.str "abcd")))),
              ("completion_tokens", .num (Int.ofNat (estimateTokenCount (.str "hello")))),
              ("total_tokens",
               .num (Int.ofNat (estimateTokenCount (Json.null) + estimateTokenCount (.str "abcd")
                                + estimateTokenCount (.str "hello"))))] := by
  constructor
  · exact usage_extraction_amended.1
      (.arr [.obj [("json",
        .obj [("output", .str "hi"), ("usage", .obj [("total_tokens", .num 7)])])]])
      (.str "hi") (.obj [("total_tokens", .num 7)]) (by decide) (by decide) (by rfl)
  · exact usage_extraction_amended.2.1 .null (.str "hello") (.str "abcd") .null
      (by decide) (by decide)
